import Mathlib

/-!
Verification development for the `prisma` color library.

The Rust sources (`src/rgb.rs`, `src/color.rs`, `src/ycbcr/bare_ycbcr.rs`)
are embedded shallowly: floating-point channel storage is modelled by `ℚ`
(exact arithmetic standing in for the real-valued semantics of the float
computations), 8-bit integer channel storage by `ℕ` with explicit `≤ 255`
bounds, fallible numeric casts by `Option`.  Generic colors `Rgb<T>` and
`BareYCbCr<T>` become Lean structures parameterized by the storage type.

Parts of the repository that the sources reference but that are not present
(`channel.rs`, `ycbcr/model.rs`) are modelled from the specification; each
such definition carries a doc comment starting `Modelled from the spec:`.
-/

namespace Prisma

/-- The RGB color struct of `src/rgb.rs`: three bounded channels.  The
`BoundedChannel` wrapper is a transparent newtype, so the channel fields
hold the storage values directly. -/
structure Rgb (T : Type) where
  red : T
  green : T
  blue : T
deriving DecidableEq, Repr

/-- `Rgb::from_channels` (src/rgb.rs lines 24-30): wraps the three raw
values with no clamping, validation or normalization. -/
def Rgb.from_channels {T : Type} (red green blue : T) : Rgb T :=
  { red := red, green := green, blue := blue }

/-- `Rgb::set_red` (src/rgb.rs lines 49-51). -/
def Rgb.set_red {T : Type} (c : Rgb T) (val : T) : Rgb T :=
  { c with red := val }

/-- `Rgb::set_green` (src/rgb.rs lines 52-54). -/
def Rgb.set_green {T : Type} (c : Rgb T) (val : T) : Rgb T :=
  { c with green := val }

/-- `Rgb::set_blue` (src/rgb.rs lines 55-57). -/
def Rgb.set_blue {T : Type} (c : Rgb T) (val : T) : Rgb T :=
  { c with blue := val }

/-- `Color::to_tuple` for `Rgb` (src/rgb.rs lines 77-79). -/
def Rgb.to_tuple {T : Type} (c : Rgb T) : T × T × T :=
  (c.red, c.green, c.blue)

/-- `GetChroma::get_chroma` for `Rgb` (src/rgb.rs lines 236-248), at the
floating-point instantiation (storage `ℚ`).  The three conditional swaps
are translated exactly as written; note that the second swap in the source
exchanges `c1` and `c3` (not `c1` and `c2`). -/
def Rgb.get_chroma (color : Rgb ℚ) : ℚ :=
  let (c1, c2, c3) := color.to_tuple
  let (c2, c3) := if c2 < c3 then (c3, c2) else (c2, c3)
  let (c1, c3) := if c1 < c2 then (c3, c1) else (c1, c3)
  let (c2, c3) := if c2 < c3 then (c3, c2) else (c2, c3)
  c1 - c3

/-- The intended 3-compare sorting network described by the spec for
`get_chroma`: compare-and-swap `(c2,c3)`, then `(c1,c2)`, then `(c2,c3)`,
then return `max - min`.  This differs from the source's code (whose middle
step swaps `c1` with `c3`). -/
def Rgb.get_chroma_network_spec (color : Rgb ℚ) : ℚ :=
  let (c1, c2, c3) := color.to_tuple
  let (c2, c3) := if c2 < c3 then (c3, c2) else (c2, c3)
  let (c1, c2) := if c1 < c2 then (c2, c1) else (c1, c2)
  let (c2, c3) := if c2 < c3 then (c3, c2) else (c2, c3)
  c1 - c3

/-- The helper `get_hue_factor_and_ordered_chans` (src/rgb.rs lines
212-230) at storage `ℚ`.  Returns `(scaling_factor, c1, c2, c3, min_chan)`.
In the source the second branch swaps `c1`/`c2` first and then reads
`c2.min(c3)`, so in pre-swap names the minimum is `min c1 c3`. -/
def get_hue_factor_and_ordered_chans (color : Rgb ℚ) : ℚ × ℚ × ℚ × ℚ × ℚ :=
  let scaling_factor : ℚ := 0
  let (c1, c2, c3) := color.to_tuple
  let (c2, c3, scaling_factor) :=
    if c2 < c3 then (c3, c2, (-1 : ℚ)) else (c2, c3, scaling_factor)
  let min_chan : ℚ := c3
  let (c1, c2, scaling_factor, min_chan) :=
    if c1 < c2 then (c2, c1, -1/3 - scaling_factor, min c1 c3)
    else (c1, c2, scaling_factor, min_chan)
  (scaling_factor, c1, c2, c3, min_chan)

/-- The epsilon constant in `get_hue` (src/rgb.rs line 258): `1e-10`. -/
def hue_epsilon : ℚ := 1 / 10 ^ 10

/-- `GetHue::get_hue` for `Rgb` (src/rgb.rs lines 255-265) at storage `ℚ`,
returning the turn-fraction scalar (the `Turns` payload
`hue_scalar.abs()`); conversion to other angular units lives in the
external angle module and is outside the core. -/
def Rgb.get_hue (color : Rgb ℚ) : ℚ :=
  let (scale_factor, c1, c2, c3, min_chan) :=
    get_hue_factor_and_ordered_chans color
  |scale_factor + (c2 - c3) / (6 * (c1 - min_chan) + hue_epsilon)|

/-- The bare YCbCr color struct of `src/ycbcr/bare_ycbcr.rs`: one
positive-normalized luma channel and two bipolar-normalized chroma
channels, all transparent newtypes over the storage value. -/
structure BareYCbCr (T : Type) where
  luma : T
  cb : T
  cr : T
deriving DecidableEq, Repr

/-- `BareYCbCr::from_channels` (src/ycbcr/bare_ycbcr.rs lines 32-38).
The channel constructors live in the absent `channel.rs`; modelled from
the spec: colors are "created by explicit construction from raw channel
values", so `PosNormalBoundedChannel::new` / `NormalBoundedChannel::new`
store the raw value unchanged. -/
def BareYCbCr.from_channels {T : Type} (luma cb cr : T) : BareYCbCr T :=
  { luma := luma, cb := cb, cr := cr }

/-- `BareYCbCr::set_luma` (src/ycbcr/bare_ycbcr.rs lines 61-63). -/
def BareYCbCr.set_luma {T : Type} (c : BareYCbCr T) (val : T) : BareYCbCr T :=
  { c with luma := val }

/-- `BareYCbCr::set_cb` (src/ycbcr/bare_ycbcr.rs lines 64-66). -/
def BareYCbCr.set_cb {T : Type} (c : BareYCbCr T) (val : T) : BareYCbCr T :=
  { c with cb := val }

/-- `BareYCbCr::set_cr` (src/ycbcr/bare_ycbcr.rs lines 67-69). -/
def BareYCbCr.set_cr {T : Type} (c : BareYCbCr T) (val : T) : BareYCbCr T :=
  { c with cr := val }

/-- `Color::to_tuple` for `BareYCbCr` (src/ycbcr/bare_ycbcr.rs lines 89-91). -/
def BareYCbCr.to_tuple {T : Type} (c : BareYCbCr T) : T × T × T :=
  (c.luma, c.cb, c.cr)

/-- Modelled from the spec: `BoundedChannel::invert` from the absent
`channel.rs`, at floating-point storage with canonical range `[0,1]`:
"replaces value `v` with `max - (v - min)`", i.e. `1 - (v - 0)`.
Matches the repository's own test `(0.8, 0.0, 0.25).invert() ==
(0.2, 1.0, 0.75)`. -/
def bounded_invert_float (v : ℚ) : ℚ := 1 - (v - 0)

/-- Modelled from the spec: `BoundedChannel::invert` from the absent
`channel.rs`, at `u8` storage with range `[0, 255]`: `max - (v - min)`,
i.e. `255 - v`.  Matches the repository's own test
`(200, 0, 255).invert() == (55, 255, 0)`. -/
def bounded_invert_u8 (v : ℕ) : ℕ := 255 - (v - 0)

/-- Modelled from the spec: invert for normalized channels from the absent
`channel.rs` ("value `v` with `canonical_max - v`"), with
`canonical_max = 1` for both the positive-normalized and the
bipolar-normalized kind at float storage. -/
def normalized_invert_float (v : ℚ) : ℚ := 1 - v

/-- `Invert::invert` for `Rgb` (src/rgb.rs lines 120-126): per-channel
bounded invert, float storage. -/
def Rgb.invert (c : Rgb ℚ) : Rgb ℚ :=
  { red := bounded_invert_float c.red,
    green := bounded_invert_float c.green,
    blue := bounded_invert_float c.blue }

/-- `Invert::invert` for `Rgb` (src/rgb.rs lines 120-126) at `u8` storage. -/
def Rgb.invert_u8 (c : Rgb ℕ) : Rgb ℕ :=
  { red := bounded_invert_u8 c.red,
    green := bounded_invert_u8 c.green,
    blue := bounded_invert_u8 c.blue }

/-- `Invert` for `BareYCbCr` (src/ycbcr/bare_ycbcr.rs lines 102-106,
the `impl_color_invert!` macro): per-channel normalized invert. -/
def BareYCbCr.invert (c : BareYCbCr ℚ) : BareYCbCr ℚ :=
  { luma := normalized_invert_float c.luma,
    cb := normalized_invert_float c.cb,
    cr := normalized_invert_float c.cr }

/-- Modelled from the spec: `BoundedChannel::normalize` from the absent
`channel.rs` at float storage, canonical range `[0,1]`: "projects an
out-of-canonical-range value into the canonical range (clamped)". -/
def bounded_normalize_float (v : ℚ) : ℚ :=
  if v < 0 then 0 else if 1 < v then 1 else v

/-- Modelled from the spec: `BoundedChannel::is_normalized` from the
absent `channel.rs` at float storage: "tests membership" of the canonical
range `[0,1]`. -/
def bounded_is_normalized_float (v : ℚ) : Prop :=
  0 ≤ v ∧ v ≤ 1

/-- `Bounded::normalize` for `Rgb` (src/rgb.rs lines 132-138): per-channel
normalize, float storage. -/
def Rgb.normalize (c : Rgb ℚ) : Rgb ℚ :=
  { red := bounded_normalize_float c.red,
    green := bounded_normalize_float c.green,
    blue := bounded_normalize_float c.blue }

/-- `Bounded::is_normalized` for `Rgb` (src/rgb.rs lines 139-141):
conjunction over the three channels. -/
def Rgb.is_normalized (c : Rgb ℚ) : Prop :=
  bounded_is_normalized_float c.red ∧ bounded_is_normalized_float c.green ∧
    bounded_is_normalized_float c.blue

/-- Modelled from the spec: channel `lerp` from the absent `channel.rs`
at float storage: "linear interpolation `v1 + (v2 - v1) * t`". -/
def lerp_float (v1 v2 t : ℚ) : ℚ := v1 + (v2 - v1) * t

/-- Truncation toward zero of a rational, the rounding applied by the
numeric cast from the float computation domain to an integer storage
type. -/
def rat_trunc (x : ℚ) : ℤ := if 0 ≤ x then ⌊x⌋ else -⌊-x⌋

/-- Modelled from the spec: channel `lerp` from the absent `channel.rs`
at `u8` storage: the interpolation is computed in the float domain and
cast back into the storage type, truncating.  Matches the repository's
own test `lerp((100,200,0), (200,0,255), 0.5) == (150,100,127)` (the
blue component `127.5` truncates to `127`). -/
def lerp_u8 (v1 v2 : ℕ) (t : ℚ) : ℕ :=
  (rat_trunc ((v1 : ℚ) + ((v2 : ℚ) - (v1 : ℚ)) * t)).toNat

/-- `Lerp::lerp` for `Rgb` (src/rgb.rs lines 144-155), float storage. -/
def Rgb.lerp (c : Rgb ℚ) (right : Rgb ℚ) (pos : ℚ) : Rgb ℚ :=
  { red := lerp_float c.red right.red pos,
    green := lerp_float c.green right.green pos,
    blue := lerp_float c.blue right.blue pos }

/-- `Lerp::lerp` for `Rgb` (src/rgb.rs lines 144-155), `u8` storage. -/
def Rgb.lerp_u8_color (c : Rgb ℕ) (right : Rgb ℕ) (pos : ℚ) : Rgb ℕ :=
  { red := lerp_u8 c.red right.red pos,
    green := lerp_u8 c.green right.green pos,
    blue := lerp_u8 c.blue right.blue pos }

/-- `Lerp` for `BareYCbCr` (src/ycbcr/bare_ycbcr.rs lines 114-119, the
`impl_color_lerp_square!` macro): per-channel lerp, float storage. -/
def BareYCbCr.lerp (c : BareYCbCr ℚ) (right : BareYCbCr ℚ) (pos : ℚ) : BareYCbCr ℚ :=
  { luma := lerp_float c.luma right.luma pos,
    cb := lerp_float c.cb right.cb pos,
    cr := lerp_float c.cr right.cr pos }

/-- The out-of-gamut policy enum of `src/ycbcr/bare_ycbcr.rs` lines 14-17. -/
inductive OutOfGamutMode where
  | Preserve : OutOfGamutMode
  | Clip : OutOfGamutMode

/-- Modelled from the spec: the 3×3 transform matrix a `Model` exposes
(the transform types live in the absent `ycbcr/model.rs`). -/
structure Matrix3 where
  a11 : ℚ
  a12 : ℚ
  a13 : ℚ
  a21 : ℚ
  a22 : ℚ
  a23 : ℚ
  a31 : ℚ
  a32 : ℚ
  a33 : ℚ
deriving DecidableEq, Repr

/-- Modelled from the spec: `transform_vector` from the absent
`ycbcr/model.rs`, the "linear-transform application (3×3 matrix
forward/inverse)" applied to a 3-component vector. -/
def Matrix3.transform_vector (m : Matrix3) (v : ℚ × ℚ × ℚ) : ℚ × ℚ × ℚ :=
  (m.a11 * v.1 + m.a12 * v.2.1 + m.a13 * v.2.2,
   m.a21 * v.1 + m.a22 * v.2.1 + m.a23 * v.2.2,
   m.a31 * v.1 + m.a32 * v.2.1 + m.a33 * v.2.2)

/-- Matrix product of two 3×3 transforms. -/
def Matrix3.mul (m n : Matrix3) : Matrix3 :=
  { a11 := m.a11 * n.a11 + m.a12 * n.a21 + m.a13 * n.a31,
    a12 := m.a11 * n.a12 + m.a12 * n.a22 + m.a13 * n.a32,
    a13 := m.a11 * n.a13 + m.a12 * n.a23 + m.a13 * n.a33,
    a21 := m.a21 * n.a11 + m.a22 * n.a21 + m.a23 * n.a31,
    a22 := m.a21 * n.a12 + m.a22 * n.a22 + m.a23 * n.a32,
    a23 := m.a21 * n.a13 + m.a22 * n.a23 + m.a23 * n.a33,
    a31 := m.a31 * n.a11 + m.a32 * n.a21 + m.a33 * n.a31,
    a32 := m.a31 * n.a12 + m.a32 * n.a22 + m.a33 * n.a32,
    a33 := m.a31 * n.a13 + m.a32 * n.a23 + m.a33 * n.a33 }

/-- The 3×3 identity transform. -/
def Matrix3.identity : Matrix3 :=
  { a11 := 1, a12 := 0, a13 := 0,
    a21 := 0, a22 := 1, a23 := 0,
    a31 := 0, a32 := 0, a33 := 1 }

/-- Modelled from the spec: the `Model` boundary from the absent
`ycbcr/model.rs` — "a forward 3×3 transform, an inverse 3×3 transform
..., and a 3-component shift".  Shift components are kept in the float
computation domain (the source casts them there before use). -/
structure YCbCrModel where
  forward : Matrix3
  inverse : Matrix3
  shift : ℚ × ℚ × ℚ

/-- `BareYCbCr::from_rgb_and_model` (src/ycbcr/bare_ycbcr.rs lines
157-164), float storage: apply the forward transform to the RGB tuple,
then add the shift componentwise. -/
def BareYCbCr.from_rgb_and_model (src : Rgb ℚ) (model : YCbCrModel) : BareYCbCr ℚ :=
  let (y, cb, cr) := model.forward.transform_vector src.to_tuple
  BareYCbCr.from_channels (y + model.shift.1) (cb + model.shift.2.1) (cr + model.shift.2.2)

/-- `BareYCbCr::to_rgb` (src/ycbcr/bare_ycbcr.rs lines 166-186), float
storage: subtract the shift (in the double-precision computation domain,
which the rational model embeds exactly), apply the inverse transform,
build the RGB value, then apply the out-of-gamut policy.  At float
storage the final numeric casts are value-preserving. -/
def BareYCbCr.to_rgb (c : BareYCbCr ℚ) (model : YCbCrModel) (out_of_gamut_mode : OutOfGamutMode) :
    Rgb ℚ :=
  let (i1, i2, i3) := c.to_tuple
  let shifted_color := (i1 - model.shift.1, i2 - model.shift.2.1, i3 - model.shift.2.2)
  let (r, g, b) := model.inverse.transform_vector shifted_color
  let out := Rgb.from_channels r g b
  match out_of_gamut_mode with
  | OutOfGamutMode.Preserve => out
  | OutOfGamutMode.Clip => out.normalize

/-- Modelled from the spec: the external numeric cast (`num::cast`) from
the double-precision computation domain into `u8` storage, as unwrapped
by `to_rgb` (src/ycbcr/bare_ycbcr.rs lines 178-180).  The cast truncates
toward zero and fails (returns `none`, i.e. the `unwrap` panics) when the
truncated value is outside the representable range `[0, 255]`. -/
def cast_f64_to_u8 (x : ℚ) : Option ℕ :=
  if 0 ≤ rat_trunc x ∧ rat_trunc x ≤ 255 then some (rat_trunc x).toNat else none

/-- The real-valued linear stage of `BareYCbCr::to_rgb` at `u8` storage
(src/ycbcr/bare_ycbcr.rs lines 170-176): channels and shift are cast to
`f64`, the shift is subtracted and the inverse transform applied. -/
def BareYCbCr.to_rgb_u8_linear (c : BareYCbCr ℕ) (model : YCbCrModel) : ℚ × ℚ × ℚ :=
  model.inverse.transform_vector
    ((c.luma : ℚ) - model.shift.1, (c.cb : ℚ) - model.shift.2.1, (c.cr : ℚ) - model.shift.2.2)

/-- Modelled from the spec: `normalize` at `u8` bounded storage — for
integer types the canonical range is the full representable range
`[0, 255]`, so normalize clamps into it. -/
def bounded_normalize_u8 (v : ℕ) : ℕ := min v 255

/-- `BareYCbCr::to_rgb` (src/ycbcr/bare_ycbcr.rs lines 166-186) at `u8`
storage.  The three `num::cast(..).unwrap()` calls are embedded as
`Option`: a `none` result models the panic of `unwrap` on a failed
cast. -/
def BareYCbCr.to_rgb_u8 (c : BareYCbCr ℕ) (model : YCbCrModel) (out_of_gamut_mode : OutOfGamutMode) :
    Option (Rgb ℕ) :=
  match cast_f64_to_u8 (c.to_rgb_u8_linear model).1,
        cast_f64_to_u8 (c.to_rgb_u8_linear model).2.1,
        cast_f64_to_u8 (c.to_rgb_u8_linear model).2.2 with
  | some rr, some gg, some bb =>
      let out := Rgb.from_channels rr gg bb
      match out_of_gamut_mode with
      | OutOfGamutMode.Preserve => some out
      | OutOfGamutMode.Clip =>
          some { red := bounded_normalize_u8 out.red,
                 green := bounded_normalize_u8 out.green,
                 blue := bounded_normalize_u8 out.blue }
  | _, _, _ => none

/-- A concrete model with identity transforms and the usual mid-range
chroma shift of 8-bit YCbCr. -/
def shift128_model : YCbCrModel :=
  { forward := Matrix3.identity, inverse := Matrix3.identity, shift := (0, 128, 128) }

/-- A concrete float-domain model with identity transforms and the
mid-range chroma shift `1/2`. -/
def float_identity_model : YCbCrModel :=
  { forward := Matrix3.identity, inverse := Matrix3.identity, shift := (0, 1/2, 1/2) }

theorem hue_epsilon_pos : (0 : ℚ) < hue_epsilon := by norm_num [hue_epsilon]

theorem lerp_u8_at_zero (a b : ℕ) : lerp_u8 a b 0 = a := by
  simp [lerp_u8, rat_trunc]

theorem lerp_u8_at_one (a b : ℕ) : lerp_u8 a b 1 = b := by
  have h : (a : ℚ) + ((b : ℚ) - (a : ℚ)) * 1 = (b : ℚ) := by ring
  simp [lerp_u8, rat_trunc, h]

theorem lerp_u8_within_one (a b : ℕ) (t : ℚ) (h0 : 0 ≤ t) (h1 : t ≤ 1) :
    |(lerp_u8 a b t : ℚ) - ((a : ℚ) + ((b : ℚ) - (a : ℚ)) * t)| ≤ 1 := by
  set e : ℚ := (a : ℚ) + ((b : ℚ) - (a : ℚ)) * t with he
  have hme : e = (a : ℚ) * (1 - t) + (b : ℚ) * t := by rw [he]; ring
  have hepos : 0 ≤ e := by
    rw [hme]
    have ha : (0 : ℚ) ≤ (a : ℚ) * (1 - t) :=
      mul_nonneg (Nat.cast_nonneg a) (by linarith)
    have hb : (0 : ℚ) ≤ (b : ℚ) * t := mul_nonneg (Nat.cast_nonneg b) h0
    linarith
  have htr : rat_trunc e = ⌊e⌋ := by rw [rat_trunc, if_pos hepos]
  have hfl : (0 : ℤ) ≤ ⌊e⌋ := Int.floor_nonneg.mpr hepos
  have hcast : ((lerp_u8 a b t : ℕ) : ℚ) = (⌊e⌋ : ℚ) := by
    rw [lerp_u8, ← he, htr]
    exact_mod_cast congrArg (fun z : ℤ => (z : ℚ)) (Int.toNat_of_nonneg hfl)
  rw [hcast, abs_le]
  constructor
  · have := Int.sub_one_lt_floor e
    linarith
  · have := Int.floor_le e
    linarith

/-- Composition of two linear transforms is the transform of the matrix
product. -/
theorem transform_vector_mul (m n : Matrix3) (v : ℚ × ℚ × ℚ) :
    m.transform_vector (n.transform_vector v) = (m.mul n).transform_vector v := by
  obtain ⟨x, y, z⟩ := v
  simp only [Matrix3.transform_vector, Matrix3.mul, Prod.mk.injEq]
  refine ⟨by ring, by ring, by ring⟩

theorem transform_vector_identity (v : ℚ × ℚ × ℚ) :
    Matrix3.identity.transform_vector v = v := by
  obtain ⟨x, y, z⟩ := v
  simp only [Matrix3.transform_vector, Matrix3.identity]
  norm_num

theorem bounded_normalize_float_is_normalized (v : ℚ) :
    bounded_is_normalized_float (bounded_normalize_float v) := by
  simp only [bounded_normalize_float, bounded_is_normalized_float]
  split_ifs with h1 h2 <;> constructor <;> linarith

theorem cast_f64_to_u8_isSome (x : ℚ) :
    (cast_f64_to_u8 x).isSome = true ↔ (0 ≤ rat_trunc x ∧ rat_trunc x ≤ 255) := by
  rw [cast_f64_to_u8]
  split_ifs with h <;> simp [h]

/-- Closed form of the hue helper: the swap-and-sign-track loop collapses
to a four-way case split on the channel ordering. -/
theorem get_hue_factor_closed_form (r g b : ℚ) :
    get_hue_factor_and_ordered_chans (Rgb.from_channels r g b) =
      if g < b then
        (if r < b then ((2 : ℚ)/3, b, r, g, min r g) else ((-1 : ℚ), r, b, g, g))
      else
        (if r < g then (-(1 : ℚ)/3, g, r, b, min r b) else ((0 : ℚ), r, g, b, b)) := by
  simp only [get_hue_factor_and_ordered_chans, Rgb.from_channels, Rgb.to_tuple]
  by_cases h1 : g < b
  · simp only [if_pos h1]
    by_cases h2 : r < b
    · simp only [if_pos h2, Prod.mk.injEq]
      norm_num
    · simp only [if_neg h2]
  · simp only [if_neg h1]
    by_cases h3 : r < g
    · simp only [if_pos h3, Prod.mk.injEq]
      norm_num
    · simp only [if_neg h3]

theorem ratio_abs_le_sixth (x y : ℚ) (hy : 0 ≤ y) (hxy : |x| ≤ y) :
    |x / (6 * y + hue_epsilon)| ≤ 1/6 := by
  have he : (0 : ℚ) < hue_epsilon := hue_epsilon_pos
  have hd : 0 < 6 * y + hue_epsilon := by linarith
  rw [abs_div, abs_of_pos hd, div_le_iff₀ hd]
  linarith

theorem ratio_pos_of_pos (x y : ℚ) (hx : 0 < x) (hxy : x ≤ y) :
    0 < x / (6 * y + hue_epsilon) := by
  have he : (0 : ℚ) < hue_epsilon := hue_epsilon_pos
  exact div_pos hx (by linarith)

/-- C1: `get_chroma` does NOT implement the claimed sorting network.  The
middle compare-and-swap of the source exchanges `c1` with `c3` instead of
`c1` with `c2`; on input `(0, 1/2, 3/10)` the code returns `3/10` while
the claimed network (and `max - min`) gives `1/2`, and on
`(3/10, 1/2, 1/5)` the code even returns a negative chroma. -/
theorem get_chroma_deviates_from_network :
    Rgb.get_chroma (Rgb.from_channels 0 (1/2) (3/10)) = 3/10 ∧
    Rgb.get_chroma_network_spec (Rgb.from_channels 0 (1/2) (3/10)) = 1/2 ∧
    max (max (0 : ℚ) (1/2)) (3/10) - min (min (0 : ℚ) (1/2)) (3/10) = 1/2 ∧
    Rgb.get_chroma (Rgb.from_channels (3/10) (1/2) (1/5)) = -(1/10) := by
  refine ⟨?_, ?_, ?_, ?_⟩ <;>
    norm_num [Rgb.get_chroma, Rgb.get_chroma_network_spec, Rgb.from_channels, Rgb.to_tuple]

/-- C5: `get_hue` of pure red is `0` turns, of pure green `1/3` turn, of
pure blue `2/3` turn, of yellow `(1/2,1/2,0)` `1/6` turn and of magenta
`(1/2,0,1/2)` `5/6` turn, the last two within `1e-6` relative
tolerance (the deviation stems from the fixed `1e-10` epsilon). -/
theorem get_hue_primary_values :
    Rgb.get_hue (Rgb.from_channels 1 0 0) = 0 ∧
    Rgb.get_hue (Rgb.from_channels 0 1 0) = 1/3 ∧
    Rgb.get_hue (Rgb.from_channels 0 0 1) = 2/3 ∧
    |Rgb.get_hue (Rgb.from_channels (1/2) (1/2) 0) - 1/6| ≤ 1/10 ^ 6 * (1/6) ∧
    |Rgb.get_hue (Rgb.from_channels (1/2) 0 (1/2)) - 5/6| ≤ 1/10 ^ 6 * (5/6) := by
  have h4 : Rgb.get_hue (Rgb.from_channels (1/2) (1/2) 0) = 5000000000/30000000001 := by
    norm_num [Rgb.get_hue, get_hue_factor_and_ordered_chans, Rgb.from_channels, Rgb.to_tuple,
      hue_epsilon]
  have h5 : Rgb.get_hue (Rgb.from_channels (1/2) 0 (1/2)) = 25000000001/30000000001 := by
    norm_num [Rgb.get_hue, get_hue_factor_and_ordered_chans, Rgb.from_channels, Rgb.to_tuple,
      hue_epsilon]
  refine ⟨?_, ?_, ?_, ?_, ?_⟩
  · norm_num [Rgb.get_hue, get_hue_factor_and_ordered_chans, Rgb.from_channels, Rgb.to_tuple,
      hue_epsilon]
  · norm_num [Rgb.get_hue, get_hue_factor_and_ordered_chans, Rgb.from_channels, Rgb.to_tuple,
      hue_epsilon]
  · norm_num [Rgb.get_hue, get_hue_factor_and_ordered_chans, Rgb.from_channels, Rgb.to_tuple,
      hue_epsilon]
  · rw [h4, abs_le]; constructor <;> norm_num
  · rw [h5, abs_le]; constructor <;> norm_num

/-- C6: `invert` is an involution on every color and channel kind:
exactly, for the float-storage RGB and YCbCr colors (rational model of
the real-valued float semantics) and for `u8`-storage RGB. -/
theorem invert_involution :
    (∀ c : Rgb ℚ, c.invert.invert = c) ∧
    (∀ c : Rgb ℕ, c.red ≤ 255 → c.green ≤ 255 → c.blue ≤ 255 →
      c.invert_u8.invert_u8 = c) ∧
    (∀ c : BareYCbCr ℚ, c.invert.invert = c) := by
  refine ⟨?_, ?_, ?_⟩
  · rintro ⟨r, g, b⟩
    simp only [Rgb.invert, bounded_invert_float, Rgb.mk.injEq]
    refine ⟨by ring, by ring, by ring⟩
  · rintro ⟨r, g, b⟩ h1 h2 h3
    simp only [Rgb.invert_u8, bounded_invert_u8, Rgb.mk.injEq] at *
    omega
  · rintro ⟨y, cb, cr⟩
    simp only [BareYCbCr.invert, normalized_invert_float, BareYCbCr.mk.injEq]
    refine ⟨by ring, by ring, by ring⟩

/-- Witness for C6: the involution applied at the repository's own test
color `(200, 0, 255)` at `u8` storage. -/
theorem invert_involution_witness :
    (Rgb.from_channels 200 0 255).invert_u8.invert_u8 = Rgb.from_channels 200 0 255 :=
  invert_involution.2.1 (Rgb.from_channels 200 0 255) (by decide) (by decide) (by decide)

/-- C9: `Rgb::from_channels` and `BareYCbCr::from_channels` store the raw
arguments unchanged — every getter returns exactly the constructor
argument, for any storage type and any values (in particular values
outside the canonical range). -/
theorem from_channels_stores_raw_values {T : Type} (r g b y cb cr : T) :
    (Rgb.from_channels r g b).red = r ∧ (Rgb.from_channels r g b).green = g ∧
    (Rgb.from_channels r g b).blue = b ∧
    (BareYCbCr.from_channels y cb cr).luma = y ∧
    (BareYCbCr.from_channels y cb cr).cb = cb ∧
    (BareYCbCr.from_channels y cb cr).cr = cr :=
  ⟨rfl, rfl, rfl, rfl, rfl, rfl⟩

/-- C10: every per-channel setter updates only its own channel and leaves
the two other channels untouched, on both `Rgb` and `BareYCbCr`. -/
theorem setters_modify_only_their_channel {T : Type} (c : Rgb T) (d : BareYCbCr T) (v : T) :
    (c.set_red v).red = v ∧ (c.set_red v).green = c.green ∧ (c.set_red v).blue = c.blue ∧
    (c.set_green v).green = v ∧ (c.set_green v).red = c.red ∧ (c.set_green v).blue = c.blue ∧
    (c.set_blue v).blue = v ∧ (c.set_blue v).red = c.red ∧ (c.set_blue v).green = c.green ∧
    (d.set_luma v).luma = v ∧ (d.set_luma v).cb = d.cb ∧ (d.set_luma v).cr = d.cr ∧
    (d.set_cb v).cb = v ∧ (d.set_cb v).luma = d.luma ∧ (d.set_cb v).cr = d.cr ∧
    (d.set_cr v).cr = v ∧ (d.set_cr v).luma = d.luma ∧ (d.set_cr v).cb = d.cb :=
  ⟨rfl, rfl, rfl, rfl, rfl, rfl, rfl, rfl, rfl,
   rfl, rfl, rfl, rfl, rfl, rfl, rfl, rfl, rfl⟩

/-- C7: `lerp(a, b, 0) = a` and `lerp(a, b, 1) = b` for float-storage RGB
and YCbCr colors and for `u8`-storage RGB; for `u8` storage every
component of the lerp result lies within `±1` of the exact real-valued
interpolation `v1 + (v2 - v1) * t`. -/
theorem lerp_endpoints_and_integer_tolerance :
    (∀ a b : Rgb ℚ, a.lerp b 0 = a ∧ a.lerp b 1 = b) ∧
    (∀ a b : BareYCbCr ℚ, a.lerp b 0 = a ∧ a.lerp b 1 = b) ∧
    (∀ a b : Rgb ℕ, a.lerp_u8_color b 0 = a ∧ a.lerp_u8_color b 1 = b) ∧
    (∀ a b : Rgb ℕ, ∀ t : ℚ, 0 ≤ t → t ≤ 1 →
      |((a.lerp_u8_color b t).red : ℚ) - ((a.red : ℚ) + ((b.red : ℚ) - (a.red : ℚ)) * t)| ≤ 1 ∧
      |((a.lerp_u8_color b t).green : ℚ) -
          ((a.green : ℚ) + ((b.green : ℚ) - (a.green : ℚ)) * t)| ≤ 1 ∧
      |((a.lerp_u8_color b t).blue : ℚ) -
          ((a.blue : ℚ) + ((b.blue : ℚ) - (a.blue : ℚ)) * t)| ≤ 1) := by
  refine ⟨?_, ?_, ?_, ?_⟩
  · rintro ⟨r1, g1, b1⟩ ⟨r2, g2, b2⟩
    constructor <;> simp only [Rgb.lerp, lerp_float, Rgb.mk.injEq] <;>
      refine ⟨by ring, by ring, by ring⟩
  · rintro ⟨y1, cb1, cr1⟩ ⟨y2, cb2, cr2⟩
    constructor <;> simp only [BareYCbCr.lerp, lerp_float, BareYCbCr.mk.injEq] <;>
      refine ⟨by ring, by ring, by ring⟩
  · rintro ⟨r1, g1, b1⟩ ⟨r2, g2, b2⟩
    constructor
    · simp only [Rgb.lerp_u8_color, Rgb.mk.injEq]
      exact ⟨lerp_u8_at_zero _ _, lerp_u8_at_zero _ _, lerp_u8_at_zero _ _⟩
    · simp only [Rgb.lerp_u8_color, Rgb.mk.injEq]
      exact ⟨lerp_u8_at_one _ _, lerp_u8_at_one _ _, lerp_u8_at_one _ _⟩
  · intro a b t h0 h1
    exact ⟨lerp_u8_within_one a.red b.red t h0 h1,
           lerp_u8_within_one a.green b.green t h0 h1,
           lerp_u8_within_one a.blue b.blue t h0 h1⟩

/-- Witness for C7: the integer-tolerance conjunct applied at the
repository's own test inputs `(100,200,0)`, `(200,0,255)`, `t = 1/2`. -/
theorem lerp_endpoints_and_integer_tolerance_witness :
    |(((Rgb.from_channels 100 200 0).lerp_u8_color (Rgb.from_channels 200 0 255) (1/2)).red : ℚ) -
        (((Rgb.from_channels 100 200 0).red : ℚ) +
          (((Rgb.from_channels 200 0 255).red : ℚ) - ((Rgb.from_channels 100 200 0).red : ℚ)) *
            (1/2))| ≤ 1 ∧
    |(((Rgb.from_channels 100 200 0).lerp_u8_color (Rgb.from_channels 200 0 255) (1/2)).green : ℚ) -
        (((Rgb.from_channels 100 200 0).green : ℚ) +
          (((Rgb.from_channels 200 0 255).green : ℚ) - ((Rgb.from_channels 100 200 0).green : ℚ)) *
            (1/2))| ≤ 1 ∧
    |(((Rgb.from_channels 100 200 0).lerp_u8_color (Rgb.from_channels 200 0 255) (1/2)).blue : ℚ) -
        (((Rgb.from_channels 100 200 0).blue : ℚ) +
          (((Rgb.from_channels 200 0 255).blue : ℚ) - ((Rgb.from_channels 100 200 0).blue : ℚ)) *
            (1/2))| ≤ 1 :=
  lerp_endpoints_and_integer_tolerance.2.2.2 (Rgb.from_channels 100 200 0)
    (Rgb.from_channels 200 0 255) (1/2) (by norm_num) (by norm_num)

/-- C2: converting an RGB color to YCbCr with `from_rgb_and_model` and
back with `to_rgb` under the `Preserve` policy returns the original color
exactly, for every model whose inverse transform is the true matrix
inverse of its forward transform (in the exact rational model of the
float computation, "within floating tolerance" sharpens to equality). -/
theorem from_rgb_to_rgb_round_trip (rgb : Rgb ℚ) (model : YCbCrModel)
    (h : model.inverse.mul model.forward = Matrix3.identity) :
    (BareYCbCr.from_rgb_and_model rgb model).to_rgb model OutOfGamutMode.Preserve = rgb := by
  obtain ⟨r, g, b⟩ := rgb
  obtain ⟨⟨f11, f12, f13, f21, f22, f23, f31, f32, f33⟩,
          ⟨i11, i12, i13, i21, i22, i23, i31, i32, i33⟩, ⟨s1, s2, s3⟩⟩ := model
  simp only [Matrix3.mul, Matrix3.identity, Matrix3.mk.injEq] at h
  obtain ⟨h11, h12, h13, h21, h22, h23, h31, h32, h33⟩ := h
  simp only [BareYCbCr.from_rgb_and_model, BareYCbCr.to_rgb, Rgb.to_tuple, BareYCbCr.to_tuple,
    BareYCbCr.from_channels, Rgb.from_channels, Matrix3.transform_vector, Rgb.mk.injEq]
  refine ⟨?_, ?_, ?_⟩
  · linear_combination r * h11 + g * h12 + b * h13
  · linear_combination r * h21 + g * h22 + b * h23
  · linear_combination r * h31 + g * h32 + b * h33

/-- Witness for C2: the round trip at the concrete color `(1/4, 1/2, 3/4)`
under the identity model with mid-range chroma shift. -/
theorem from_rgb_to_rgb_round_trip_witness :
    (BareYCbCr.from_rgb_and_model (Rgb.from_channels (1/4) (1/2) (3/4))
        float_identity_model).to_rgb float_identity_model OutOfGamutMode.Preserve =
      Rgb.from_channels (1/4) (1/2) (3/4) :=
  from_rgb_to_rgb_round_trip (Rgb.from_channels (1/4) (1/2) (3/4)) float_identity_model
    (by simp [float_identity_model, Matrix3.mul, Matrix3.identity])

/-- C4: `to_rgb` under the `Clip` policy always returns a color whose
`is_normalized()` holds, for every input and model; under `Preserve` the
result can fail `is_normalized()` (witnessed by luma `2` under the
identity model). -/
theorem to_rgb_clip_normalized_preserve_not :
    (∀ (c : BareYCbCr ℚ) (model : YCbCrModel),
      (c.to_rgb model OutOfGamutMode.Clip).is_normalized) ∧
    ¬ ((BareYCbCr.from_channels 2 0 0).to_rgb float_identity_model
        OutOfGamutMode.Preserve).is_normalized := by
  constructor
  · intro c model
    simp only [BareYCbCr.to_rgb, BareYCbCr.to_tuple, Rgb.from_channels, Rgb.normalize,
      Rgb.is_normalized]
    exact ⟨bounded_normalize_float_is_normalized _, bounded_normalize_float_is_normalized _,
      bounded_normalize_float_is_normalized _⟩
  · simp only [BareYCbCr.to_rgb, BareYCbCr.to_tuple, BareYCbCr.from_channels,
      float_identity_model, Matrix3.identity, Matrix3.transform_vector, Rgb.from_channels,
      Rgb.is_normalized, bounded_is_normalized_float]
    norm_num

/-- C3 counterexample: the cast failure branch of `to_rgb` IS reachable.
At `u8` storage under the identity model with the usual `(0,128,128)`
chroma shift, the all-zero YCbCr value maps to component `-128`, whose
cast to `u8` fails: the embedded result is `none` (the `unwrap` in the
source panics), so `to_rgb` is not total and does not saturate. -/
theorem to_rgb_u8_panic_reachable :
    BareYCbCr.to_rgb_u8 (BareYCbCr.from_channels 0 0 0) shift128_model
      OutOfGamutMode.Preserve = none := by
  have hlin : (BareYCbCr.from_channels (0 : ℕ) 0 0).to_rgb_u8_linear shift128_model =
      (0, -128, -128) := by
    simp only [BareYCbCr.to_rgb_u8_linear, BareYCbCr.from_channels, shift128_model,
      Matrix3.identity, Matrix3.transform_vector, Prod.mk.injEq]
    norm_num
  have e1 : cast_f64_to_u8 ((BareYCbCr.from_channels (0 : ℕ) 0 0).to_rgb_u8_linear
      shift128_model).1 = some 0 := by
    rw [hlin]; norm_num [cast_f64_to_u8, rat_trunc]
  have e2 : cast_f64_to_u8 ((BareYCbCr.from_channels (0 : ℕ) 0 0).to_rgb_u8_linear
      shift128_model).2.1 = none := by
    rw [hlin]; norm_num [cast_f64_to_u8, rat_trunc]
  have e3 : cast_f64_to_u8 ((BareYCbCr.from_channels (0 : ℕ) 0 0).to_rgb_u8_linear
      shift128_model).2.2 = none := by
    rw [hlin]; norm_num [cast_f64_to_u8, rat_trunc]
  rw [BareYCbCr.to_rgb_u8.eq_def, e1, e2, e3]

/-- C3 amended: `to_rgb` at integer storage succeeds exactly when every
component produced by the inverse transform truncates into the target
range `[0, 255]`; outside that range the numeric cast fails and the
`unwrap` panics — the code surfaces the failed cast rather than
saturating.  (At float storage the casts are value-preserving and
total.) -/
theorem to_rgb_u8_some_iff (c : BareYCbCr ℕ) (model : YCbCrModel) (mode : OutOfGamutMode) :
    (c.to_rgb_u8 model mode).isSome = true ↔
      ((0 ≤ rat_trunc (c.to_rgb_u8_linear model).1 ∧
          rat_trunc (c.to_rgb_u8_linear model).1 ≤ 255) ∧
       (0 ≤ rat_trunc (c.to_rgb_u8_linear model).2.1 ∧
          rat_trunc (c.to_rgb_u8_linear model).2.1 ≤ 255) ∧
       (0 ≤ rat_trunc (c.to_rgb_u8_linear model).2.2 ∧
          rat_trunc (c.to_rgb_u8_linear model).2.2 ≤ 255)) := by
  rw [← cast_f64_to_u8_isSome, ← cast_f64_to_u8_isSome, ← cast_f64_to_u8_isSome,
    BareYCbCr.to_rgb_u8.eq_def]
  rcases cast_f64_to_u8 (c.to_rgb_u8_linear model).1 with _ | rr <;>
    rcases cast_f64_to_u8 (c.to_rgb_u8_linear model).2.1 with _ | gg <;>
      rcases cast_f64_to_u8 (c.to_rgb_u8_linear model).2.2 with _ | bb <;>
        cases mode <;> simp

/-- C8: for every RGB color the turn-fraction value produced by
`get_hue` (the absolute value of the computed hue scalar) lies in
`[0, 1)`. -/
theorem get_hue_turn_fraction_range (color : Rgb ℚ) :
    0 ≤ color.get_hue ∧ color.get_hue < 1 := by
  obtain ⟨r, g, b⟩ := color
  have hmk : (⟨r, g, b⟩ : Rgb ℚ) = Rgb.from_channels r g b := rfl
  rw [hmk, Rgb.get_hue, get_hue_factor_closed_form]
  by_cases h1 : g < b
  · by_cases h2 : r < b
    · simp only [if_pos h1, if_pos h2]
      refine ⟨abs_nonneg _, ?_⟩
      have hy : 0 ≤ b - min r g := by
        have := min_le_left r g; linarith
      have hxy : |r - g| ≤ b - min r g := by
        rw [abs_le]
        constructor
        · have := min_le_left r g; linarith
        · have := min_le_right r g; linarith
      have hq := ratio_abs_le_sixth (r - g) (b - min r g) hy hxy
      have h1q := abs_add ((2 : ℚ)/3) ((r - g) / (6 * (b - min r g) + hue_epsilon))
      have h23 : |(2 : ℚ)/3| = 2/3 := by norm_num
      linarith
    · simp only [if_pos h1, if_neg h2]
      refine ⟨abs_nonneg _, ?_⟩
      have hb : b ≤ r := not_lt.mp h2
      have hx : 0 < b - g := by linarith
      have hxy2 : b - g ≤ r - g := by linarith
      have hy : 0 ≤ r - g := by linarith
      have habs : |b - g| ≤ r - g := by rw [abs_of_pos hx]; exact hxy2
      have hq6 := ratio_abs_le_sixth (b - g) (r - g) hy habs
      have hqle : (b - g) / (6 * (r - g) + hue_epsilon) ≤ 1/6 :=
        le_trans (le_abs_self _) hq6
      have hqpos := ratio_pos_of_pos (b - g) (r - g) hx hxy2
      rw [abs_of_neg (by linarith :
        (-1 : ℚ) + (b - g) / (6 * (r - g) + hue_epsilon) < 0)]
      linarith
  · by_cases h3 : r < g
    · simp only [if_neg h1, if_pos h3]
      refine ⟨abs_nonneg _, ?_⟩
      have hbg : b ≤ g := not_lt.mp h1
      have hy : 0 ≤ g - min r b := by
        have := min_le_left r b; linarith
      have hxy : |r - b| ≤ g - min r b := by
        rw [abs_le]
        constructor
        · have := min_le_left r b; linarith
        · have := min_le_right r b; linarith
      have hq := ratio_abs_le_sixth (r - b) (g - min r b) hy hxy
      have h1q := abs_add (-(1 : ℚ)/3) ((r - b) / (6 * (g - min r b) + hue_epsilon))
      have h13 : |(-(1 : ℚ)/3)| = 1/3 := by norm_num
      linarith
    · simp only [if_neg h1, if_neg h3]
      refine ⟨abs_nonneg _, ?_⟩
      have hbg : b ≤ g := not_lt.mp h1
      have hgr : g ≤ r := not_lt.mp h3
      have hy : 0 ≤ r - b := by linarith
      have hxy : |g - b| ≤ r - b := by
        rw [abs_of_nonneg (by linarith : (0 : ℚ) ≤ g - b)]; linarith
      have hq := ratio_abs_le_sixth (g - b) (r - b) hy hxy
      have hz : |(0 : ℚ) + (g - b) / (6 * (r - b) + hue_epsilon)| =
          |(g - b) / (6 * (r - b) + hue_epsilon)| := by rw [zero_add]
      linarith

end Prisma
